import Mathlib

/-!
Verification development for the `fastmcp_extensions` package.

This file gives a shallow embedding of the two specifiable components of the
repository:

* the configuration resolver of `src/fastmcp_extensions/server.py`
  (`MCPServerConfigArg`, `_get_header_value`, `_resolve_config_arg`), and
* the per-request tool filtering middleware of
  `src/fastmcp_extensions/middleware.py` (`ToolFilterMiddleware.on_list_tools`,
  `ToolFilterMiddleware.on_call_tool`, `ToolFilterMiddleware._get_tool_by_name`).

Python conventions are made explicit: header maps and the process environment
become ordered association lists (dict iteration order), `str | None` becomes
`Option String`, a function that may raise becomes `Except`, and Python
truthiness of an optional string (`None` and `""` are falsy) becomes explicit
emptiness tests.
-/

namespace FastmcpExtensions

/-- A single apostrophe character, used to build the literal error-message
strings of the source. -/
def squote : String := String.singleton (Char.ofNat 39)

/-- Python `default: str | Callable[[], str]` of `MCPServerConfigArg`:
either a literal string or a zero-argument producer. -/
inductive ConfigDefault where
  | literal (value : String)
  | producer (f : Unit → String)

/-- Evaluating a default: `callable(default)` is invoked with no arguments,
a literal is used as-is (server.py lines 207-210). -/
def evalDefault : ConfigDefault → String
  | .literal v => v
  | .producer f => f ()

/-- Embedding of the `MCPServerConfigArg` dataclass (server.py lines 79-108).

`normalize_fn` models Python `Callable[[str], str | None]` that may also
raise: `.ok (some v)` is a returned value, `.ok none` is the `None`
("treat as not found") return, `.error e` is a raised validation error
carrying its message. -/
structure MCPServerConfigArg where
  name : String
  http_header_key : Option String := none
  env_var : Option String := none
  default : Option ConfigDefault := none
  required : Bool := true
  sensitive : Bool := false
  normalize_fn : Option (String → Except String (Option String)) := none

/-- Errors that `_resolve_config_arg` can surface: a validation error raised
by `normalize_fn` (propagated as-is), or the `ValueError` for a missing
required config. -/
inductive ResolveError where
  | normalization (msg : String)
  | missingRequired (msg : String)
deriving Repr, DecidableEq

/-- Python `str.lower()` (character-wise lower-casing of the string). -/
def pyLower (s : String) : String := ⟨s.data.map Char.toLower⟩

/-- Embedding of `_get_header_value` (server.py lines 155-169): iterate the
headers dict in order and return the first value whose key matches
case-insensitively. -/
def _get_header_value (headers : List (String × String)) (header_name : String) :
    Option String :=
  headers.findSome? fun kv =>
    if pyLower kv.1 == pyLower header_name then some kv.2 else none

/-- Python `os.environ.get(k)` over an explicit environment snapshot. -/
def envGet (env : List (String × String)) (k : String) : Option String :=
  (env.find? fun kv => kv.1 == k).map Prod.snd

/-- Embedding of the nested `_apply_normalize` of `_resolve_config_arg`
(server.py lines 185-189): apply `normalize_fn` if configured, otherwise
return the value as-is. -/
def _apply_normalize (arg : MCPServerConfigArg) (value : String) :
    Except String (Option String) :=
  match arg.normalize_fn with
  | some f => f value
  | none => .ok (some value)

/-- Outcome of the HTTP-header branch of `_resolve_config_arg`
(server.py lines 191-198): `some r` means the branch returns `r` (a resolved
value or a propagated normalization error); `none` means control falls
through to the environment branch.  The guards mirror the source exactly:
`if config_arg.http_header_key:` (truthy: set and non-empty),
`if headers:` (non-empty dict), `if header_value:` (found and non-empty),
`if normalized is not None: return normalized`. -/
def tryHeaderSource (arg : MCPServerConfigArg) (headers : List (String × String)) :
    Option (Except ResolveError String) :=
  match arg.http_header_key with
  | none => none
  | some hk =>
    if hk.isEmpty then none
    else if headers.isEmpty then none
    else
      match _get_header_value headers hk with
      | none => none
      | some hv =>
        if hv.isEmpty then none
        else
          match _apply_normalize arg hv with
          | .error e => some (.error (.normalization e))
          | .ok (some n) => some (.ok n)
          | .ok none => none

/-- Outcome of the environment-variable branch of `_resolve_config_arg`
(server.py lines 200-205), with the same fall-through semantics as
`tryHeaderSource`. -/
def tryEnvSource (arg : MCPServerConfigArg) (env : List (String × String)) :
    Option (Except ResolveError String) :=
  match arg.env_var with
  | none => none
  | some ev =>
    if ev.isEmpty then none
    else
      match envGet env ev with
      | none => none
      | some v =>
        if v.isEmpty then none
        else
          match _apply_normalize arg v with
          | .error e => some (.error (.normalization e))
          | .ok (some n) => some (.ok n)
          | .ok none => none

/-- Python `" or ".join(sources)`. -/
def joinOr : List String → String
  | [] => ""
  | [s] => s
  | s :: rest => s ++ " or " ++ joinOr rest

/-- The `sources` list built for the missing-required-config message
(server.py lines 213-217): the descriptions of the configured sources, in
order. -/
def missingSources (arg : MCPServerConfigArg) : List String :=
  (match arg.http_header_key with
   | some hk =>
     if hk.isEmpty then []
     else ["HTTP header " ++ squote ++ hk ++ squote]
   | none => []) ++
  (match arg.env_var with
   | some ev =>
     if ev.isEmpty then []
     else ["environment variable " ++ squote ++ ev ++ squote]
   | none => [])

/-- The `source_str` of the missing-required-config message
(server.py line 218): the joined source descriptions, or the fallback text
when nothing was configured. -/
def missingSourceStr (arg : MCPServerConfigArg) : String :=
  if (missingSources arg).isEmpty then "no sources configured"
  else joinOr (missingSources arg)

/-- The message of the `ValueError` raised for a missing required config
(server.py lines 212-221): enumerates the configured sources, never a
resolved value. -/
def missingMessage (arg : MCPServerConfigArg) : String :=
  "Required config " ++ squote ++ arg.name ++ squote ++ " not found. Set " ++
    missingSourceStr arg ++ "."

/-- The tail of `_resolve_config_arg` after both the header and the
environment branch fell through (server.py lines 207-223): the default
(bypassing normalization), then the required/optional outcome. -/
def resolveDefaultOnward (arg : MCPServerConfigArg) : Except ResolveError String :=
  match arg.default with
  | some d => .ok (evalDefault d)
  | none =>
    if arg.required then .error (.missingRequired (missingMessage arg))
    else .ok ""

/-- The tail of `_resolve_config_arg` after the header branch fell through
(server.py lines 200-223): environment, then default, then the
required/optional outcome. -/
def resolveEnvOnward (arg : MCPServerConfigArg) (env : List (String × String)) :
    Except ResolveError String :=
  match tryEnvSource arg env with
  | some r => r
  | none => resolveDefaultOnward arg

/-- Embedding of `_resolve_config_arg` (server.py lines 172-223), with the
request headers and the environment snapshot passed explicitly. -/
def _resolve_config_arg (arg : MCPServerConfigArg)
    (headers env : List (String × String)) : Except ResolveError String :=
  match tryHeaderSource arg headers with
  | some r => r
  | none => resolveEnvOnward arg env

/-- Embedding of the MCP `Tool` objects the middleware filters: the name plus
the declared boolean capability hints (`mcp.types.Tool` carries more fields,
but the middleware and the filters only read the name and the hints). -/
structure Tool where
  name : String
  readOnlyHint : Option Bool := none
  destructiveHint : Option Bool := none
deriving Repr, DecidableEq

/-- The slice of the `FastMCP` app the middleware reads: the tool manager
with its `_tools` dict (`getattr(self._app, "_tool_manager", None)` may be
absent, hence the outer `Option`; the dict is an ordered association list
from tool name to tool, with `to_mcp_tool` already applied). -/
structure App where
  tool_manager : Option (List (String × Tool))
deriving Repr, DecidableEq

/-- Embedding of `ToolFilterMiddleware._get_tool_by_name`
(middleware.py lines 186-207): `None` without a tool manager, otherwise
`_tools.get(name)`. -/
def _get_tool_by_name (app : App) (name : String) : Option Tool :=
  match app.tool_manager with
  | none => none
  | some tools => ((tools.find? fun kv => kv.1 == name).map Prod.snd)

/-- A tool filter: Python `ToolFilterFn` takes the tool and the app and reads
the request-scoped configuration ambiently; the embedding passes that
request context explicitly as a value of an arbitrary type `Ctx`. -/
def ToolFilterFn (Ctx : Type) : Type := Tool → Ctx → Bool

/-- The message of the `ValueError` raised by `on_call_tool` for a filtered
tool (middleware.py lines 179-182). -/
def rejectionMessage (tool_name : String) : String :=
  "Tool " ++ squote ++ tool_name ++ squote ++ " is not available. " ++
    "It may be restricted based on your current session configuration."

/-- What `on_call_tool` does with one request: raise the `ValueError`
(carrying its message) or forward the call to `call_next` unchanged. -/
inductive CallDecision where
  | reject (msg : String)
  | forward
deriving Repr, DecidableEq

/-- Embedding of `ToolFilterMiddleware.on_call_tool`
(middleware.py lines 157-184): look the tool up by name; if it was found and
the filter returns false, raise; otherwise forward to `call_next`. -/
def on_call_tool {Ctx : Type} (app : App) (tool_filter : ToolFilterFn Ctx)
    (ctx : Ctx) (tool_name : String) : CallDecision :=
  match _get_tool_by_name app tool_name with
  | some tool =>
    if !tool_filter tool ctx then .reject (rejectionMessage tool_name)
    else .forward
  | none => .forward

/-- Embedding of `ToolFilterMiddleware.on_list_tools`
(middleware.py lines 140-155): keep the tools returned by `call_next` for
which the filter returns true, in order. -/
def on_list_tools {Ctx : Type} (tool_filter : ToolFilterFn Ctx) (ctx : Ctx)
    (tools : List Tool) : List Tool :=
  tools.filter fun tool => tool_filter tool ctx

/-- Modelled from the spec: the composition of the registered tool filters.
The module composing the registered filters (`tool_filters.py`, re-exported
by `__init__.py` as `STANDARD_TOOL_FILTERS`) is not present under `src/`;
the spec states "The composed result is the logical AND of all registered
filters (deny-by-any)", which this definition transcribes. -/
def composeFilters {Ctx : Type} (filters : List (ToolFilterFn Ctx)) :
    ToolFilterFn Ctx :=
  fun tool ctx => filters.all fun f => f tool ctx

/-! ### Helper notions and concrete fixtures used by the theorems below -/

/-- The string `needle` occurs contiguously inside `haystack`. -/
def containsStr (haystack needle : String) : Prop :=
  ∃ a b : List Char, haystack.data = a ++ needle.data ++ b

theorem containsStr_self (s : String) : containsStr s s :=
  ⟨[], [], by simp⟩

theorem containsStr_append_left (s t n : String) (h : containsStr s n) :
    containsStr (s ++ t) n := by
  obtain ⟨a, b, hab⟩ := h
  exact ⟨a, b ++ t.data, by simp [String.data_append, hab]⟩

theorem containsStr_append_right (s t n : String) (h : containsStr t n) :
    containsStr (s ++ t) n := by
  obtain ⟨a, b, hab⟩ := h
  exact ⟨s.data ++ a, b, by simp [String.data_append, hab]⟩

theorem containsStr_joinOr_head (s : String) (rest : List String) (n : String)
    (h : containsStr s n) : containsStr (joinOr (s :: rest)) n := by
  cases rest with
  | nil => simpa [joinOr] using h
  | cons t ts =>
    show containsStr (s ++ " or " ++ joinOr (t :: ts)) n
    exact containsStr_append_left _ _ _ (containsStr_append_left _ _ _ h)

theorem containsStr_joinOr_tail (s t : String) (ts : List String) (n : String)
    (h : containsStr (joinOr (t :: ts)) n) :
    containsStr (joinOr (s :: t :: ts)) n := by
  show containsStr (s ++ " or " ++ joinOr (t :: ts)) n
  exact containsStr_append_right _ _ _ h

/-- When a non-empty header name is configured, the missing-required-config
message names it. -/
theorem missingMessage_contains_header (arg : MCPServerConfigArg) (hk : String)
    (hhk : arg.http_header_key = some hk) (hne : hk.isEmpty = false) :
    containsStr (missingMessage arg) hk := by
  have hdr : containsStr ("HTTP header " ++ squote ++ hk ++ squote) hk :=
    containsStr_append_left _ _ _
      (containsStr_append_right _ _ _ (containsStr_self hk))
  have hsrc : containsStr (missingSourceStr arg) hk := by
    have hrest : ∃ rest, missingSources arg =
        ("HTTP header " ++ squote ++ hk ++ squote) :: rest := by
      rcases hev : arg.env_var with _ | ev
      · exact ⟨[], by simp [missingSources, hhk, hne, hev]⟩
      · cases hevne : ev.isEmpty with
        | true => exact ⟨[], by simp [missingSources, hhk, hne, hev, hevne]⟩
        | false =>
          exact ⟨[("environment variable " ++ squote ++ ev ++ squote)],
            by simp [missingSources, hhk, hne, hev, hevne]⟩
    obtain ⟨rest, hrest⟩ := hrest
    rw [missingSourceStr, hrest]
    simpa using containsStr_joinOr_head _ rest hk hdr
  unfold missingMessage
  exact containsStr_append_left _ _ _ (containsStr_append_right _ _ _ hsrc)

/-- When a non-empty environment variable name is configured, the
missing-required-config message names it. -/
theorem missingMessage_contains_env (arg : MCPServerConfigArg) (ev : String)
    (hev : arg.env_var = some ev) (hne : ev.isEmpty = false) :
    containsStr (missingMessage arg) ev := by
  have edr : containsStr ("environment variable " ++ squote ++ ev ++ squote) ev :=
    containsStr_append_left _ _ _
      (containsStr_append_right _ _ _ (containsStr_self ev))
  have hsrc : containsStr (missingSourceStr arg) ev := by
    rcases hhk : arg.http_header_key with _ | hk
    · have hrest : missingSources arg =
          [("environment variable " ++ squote ++ ev ++ squote)] := by
        simp [missingSources, hhk, hev, hne]
      rw [missingSourceStr, hrest]
      simpa using containsStr_joinOr_head _ [] ev edr
    · cases hkne : hk.isEmpty with
      | true =>
        have hrest : missingSources arg =
            [("environment variable " ++ squote ++ ev ++ squote)] := by
          simp [missingSources, hhk, hkne, hev, hne]
        rw [missingSourceStr, hrest]
        simpa using containsStr_joinOr_head _ [] ev edr
      | false =>
        have hrest : missingSources arg =
            [("HTTP header " ++ squote ++ hk ++ squote),
             ("environment variable " ++ squote ++ ev ++ squote)] := by
          simp [missingSources, hhk, hkne, hev, hne]
        rw [missingSourceStr, hrest]
        simpa using containsStr_joinOr_tail _ _ [] ev
          (containsStr_joinOr_head _ [] ev edr)
  unfold missingMessage
  exact containsStr_append_left _ _ _ (containsStr_append_right _ _ _ hsrc)

/-- The spec's running example: header `X-API-Key`, env `API_KEY`, default
`"dev-fallback"`, required. -/
def apiKeySpec : MCPServerConfigArg :=
  { name := "api_key", http_header_key := some "X-API-Key",
    env_var := some "API_KEY", default := some (.literal "dev-fallback") }

/-- A config arg whose normalize function maps the raw header value `"raw"`
to the empty string and leaves every other value unchanged, with an
environment fallback available. -/
def emptyNormSpec : MCPServerConfigArg :=
  { name := "c", http_header_key := some "X-K", env_var := some "E",
    normalize_fn := some fun v =>
      if v == "raw" then .ok (some "") else .ok (some v) }

/-- A config arg with a literal default and a normalize function that would
rewrite any value it is applied to. -/
def trustedDefaultSpec : MCPServerConfigArg :=
  { name := "d", http_header_key := some "X-D", env_var := some "D",
    default := some (.literal "dflt"),
    normalize_fn := some fun _ => .ok (some "NORMALIZED") }

/-- A config arg whose default is a zero-argument producer. -/
def producerDefaultSpec : MCPServerConfigArg :=
  { name := "p", default := some (.producer fun _ => "produced") }

/-- A required config arg with both sources configured and no default. -/
def requiredSpec : MCPServerConfigArg :=
  { name := "api_key", http_header_key := some "X-API-Key",
    env_var := some "API_KEY" }

/-- The same config arg with `required := false`. -/
def optionalSpec : MCPServerConfigArg := { requiredSpec with required := false }

/-- A config arg whose normalize function accepts `"Bearer good"` (yielding
`"good"`), treats `"skip"` as not found, and raises on anything else. -/
def bearerSpec : MCPServerConfigArg :=
  { name := "token", http_header_key := some "Authorization",
    env_var := some "TOKEN",
    normalize_fn := some fun v =>
      if v == "Bearer good" then .ok (some "good")
      else if v == "skip" then .ok none
      else .error "invalid authorization value" }

/-- A tool with no hints, mirroring the spec's `write_tool` example. -/
def writeTool : Tool := { name := "write_tool" }

/-- An app whose tool manager registers exactly `writeTool`. -/
def demoApp : App := { tool_manager := some [("write_tool", writeTool)] }

/-- A filter that hides every tool. -/
def hideAllFilter : ToolFilterFn Unit := fun _ _ => false

/-- The readonly-mode style filter: only tools hinted read-only are visible. -/
def readOnlyOnlyFilter : ToolFilterFn Unit := fun tool _ =>
  tool.readOnlyHint == some true

/-- The no-destructive-tools style filter: tools hinted destructive are
hidden. -/
def noDestructiveFilter : ToolFilterFn Unit := fun tool _ =>
  !(tool.destructiveHint == some true)

/-- A tool hinted both read-only and destructive, as in the spec's
monotonicity example. -/
def dualHintTool : Tool :=
  { name := "dual", readOnlyHint := some true, destructiveHint := some true }

/-! ### Claim theorems -/

/-- C1: call/list agreement.  For every tool registered in the app's tool
manager and every request context, if the tool filter returns false for that
tool then `on_call_tool` rejects the call with the descriptive error naming
the tool, and if the filter returns true the call path forwards the call
(never rejects on filtering grounds); moreover a tool the filter hides is
omitted from every filtered listing under that same context. -/
theorem call_list_agreement {Ctx : Type} (app : App) (f : ToolFilterFn Ctx)
    (ctx : Ctx) (name : String) (tool : Tool)
    (hfound : _get_tool_by_name app name = some tool) :
    (f tool ctx = false →
      on_call_tool app f ctx name = .reject (rejectionMessage name)) ∧
    (f tool ctx = true → on_call_tool app f ctx name = .forward) ∧
    (∀ tools : List Tool, f tool ctx = false →
      tool ∉ on_list_tools f ctx tools) := by
  refine ⟨fun hf => ?_, fun hf => ?_, fun tools hf => ?_⟩
  · simp [on_call_tool, hfound, hf]
  · simp [on_call_tool, hfound, hf]
  · simp [on_list_tools, List.mem_filter, hf]

/-- C1 witness: the hide-all filter hides `writeTool`, and the call path
rejects it with the canonical message. -/
theorem call_list_agreement_witness :
    _get_tool_by_name demoApp "write_tool" = some writeTool ∧
    hideAllFilter writeTool () = false ∧
    on_call_tool demoApp hideAllFilter () "write_tool" =
      .reject (rejectionMessage "write_tool") :=
  ⟨rfl, rfl,
    (call_list_agreement demoApp hideAllFilter () "write_tool" writeTool
      rfl).1 rfl⟩

/-- C2: source precedence.  Whenever the configured header is present with a
non-empty value (and no normalize function is configured), resolution
returns the header value regardless of the environment; and on the spec's
concrete example, with no header and `API_KEY=secret1`, resolution yields
`secret1`, and with the environment removed it yields the default
`dev-fallback`. -/
theorem header_precedence :
    (∀ (arg : MCPServerConfigArg) (headers env : List (String × String))
        (hk hv : String),
      arg.normalize_fn = none →
      arg.http_header_key = some hk → hk.isEmpty = false →
      headers.isEmpty = false →
      _get_header_value headers hk = some hv → hv.isEmpty = false →
      _resolve_config_arg arg headers env = .ok hv) ∧
    _resolve_config_arg apiKeySpec [] [("API_KEY", "secret1")] =
      .ok "secret1" ∧
    _resolve_config_arg apiKeySpec [] [] = .ok "dev-fallback" := by
  refine ⟨?_, rfl, rfl⟩
  intro arg headers env hk hv hnf hhk hkne hhe hget hvne
  simp [_resolve_config_arg, tryHeaderSource, hhk, hkne, hhe, hget, hvne,
    _apply_normalize, hnf]

/-- C2 witness: a header present alongside a populated environment wins. -/
theorem header_precedence_witness :
    apiKeySpec.normalize_fn = none ∧
    _resolve_config_arg apiKeySpec [("x-api-key", "hv")]
      [("API_KEY", "secret1")] = .ok "hv" :=
  ⟨rfl,
    header_precedence.1 apiKeySpec [("x-api-key", "hv")]
      [("API_KEY", "secret1")] "X-API-Key" "hv" rfl rfl rfl rfl rfl rfl⟩

/-- C3: required/optional outcome.  When neither the header branch nor the
environment branch yields anything and no default is configured, a required
arg fails with the missing-required-config error whose message names every
configured source (header name, env var name), while the same arg with
`required = false` resolves to the empty string. -/
theorem required_optional_outcome (arg : MCPServerConfigArg)
    (headers env : List (String × String))
    (hh : tryHeaderSource arg headers = none)
    (he : tryEnvSource arg env = none) (hd : arg.default = none) :
    (arg.required = true →
      _resolve_config_arg arg headers env =
        .error (.missingRequired (missingMessage arg)) ∧
      (∀ hk, arg.http_header_key = some hk → hk.isEmpty = false →
        containsStr (missingMessage arg) hk) ∧
      (∀ ev, arg.env_var = some ev → ev.isEmpty = false →
        containsStr (missingMessage arg) ev)) ∧
    (arg.required = false → _resolve_config_arg arg headers env = .ok "") := by
  constructor
  · intro hreq
    refine ⟨?_, fun hk hhk hne => missingMessage_contains_header arg hk hhk hne,
      fun ev hev hne => missingMessage_contains_env arg ev hev hne⟩
    simp [_resolve_config_arg, hh, resolveEnvOnward, he, resolveDefaultOnward,
      hd, hreq]
  · intro hreq
    simp [_resolve_config_arg, hh, resolveEnvOnward, he, resolveDefaultOnward,
      hd, hreq]

/-- C3 witness: the required spec fails with the enumerating message; its
optional twin resolves to the empty string. -/
theorem required_optional_outcome_witness :
    requiredSpec.required = true ∧ optionalSpec.required = false ∧
    _resolve_config_arg requiredSpec [] [] =
      .error (.missingRequired (missingMessage requiredSpec)) ∧
    _resolve_config_arg optionalSpec [] [] = .ok "" :=
  ⟨rfl, rfl,
    ((required_optional_outcome requiredSpec [] [] rfl rfl rfl).1 rfl).1,
    (required_optional_outcome optionalSpec [] [] rfl rfl rfl).2 rfl⟩

/-- C4: normalization outcomes, for the header source and for the
environment source.  If normalization returns a value, resolution returns
it; if it signals not-found, resolution moves on to the rest of the chain
without retrying the same source; if it raises, the validation error
propagates at once and no later source is consulted. -/
theorem normalization_outcomes :
    (∀ (arg : MCPServerConfigArg) (headers env : List (String × String))
        (hk hv : String),
      arg.http_header_key = some hk → hk.isEmpty = false →
      headers.isEmpty = false → _get_header_value headers hk = some hv →
      hv.isEmpty = false →
      (∀ n, _apply_normalize arg hv = .ok (some n) →
        _resolve_config_arg arg headers env = .ok n) ∧
      (_apply_normalize arg hv = .ok none →
        _resolve_config_arg arg headers env = resolveEnvOnward arg env) ∧
      (∀ e, _apply_normalize arg hv = .error e →
        _resolve_config_arg arg headers env = .error (.normalization e))) ∧
    (∀ (arg : MCPServerConfigArg) (headers env : List (String × String))
        (ev v : String),
      tryHeaderSource arg headers = none →
      arg.env_var = some ev → ev.isEmpty = false →
      envGet env ev = some v → v.isEmpty = false →
      (∀ n, _apply_normalize arg v = .ok (some n) →
        _resolve_config_arg arg headers env = .ok n) ∧
      (_apply_normalize arg v = .ok none →
        _resolve_config_arg arg headers env = resolveDefaultOnward arg) ∧
      (∀ e, _apply_normalize arg v = .error e →
        _resolve_config_arg arg headers env = .error (.normalization e))) := by
  constructor
  · intro arg headers env hk hv hhk hkne hhe hget hvne
    refine ⟨fun n hn => ?_, fun hn => ?_, fun e hn => ?_⟩ <;>
      simp [_resolve_config_arg, tryHeaderSource, hhk, hkne, hhe, hget, hvne, hn]
  · intro arg headers env ev v hh hev hevne hget hvne
    refine ⟨fun n hn => ?_, fun hn => ?_, fun e hn => ?_⟩ <;>
      simp [_resolve_config_arg, hh, resolveEnvOnward, tryEnvSource, hev,
        hevne, hget, hvne, hn]

/-- C4 witness: the bearer-style normalize function returns a value for a
good header, and raises (with no fallback to the populated environment) for
a bad one. -/
theorem normalization_outcomes_witness :
    _apply_normalize bearerSpec "Bearer good" = .ok (some "good") ∧
    _resolve_config_arg bearerSpec [("authorization", "Bearer good")]
      [("TOKEN", "envtok")] = .ok "good" ∧
    _apply_normalize bearerSpec "bad" = .error "invalid authorization value" ∧
    _resolve_config_arg bearerSpec [("authorization", "bad")]
      [("TOKEN", "envtok")] =
      .error (.normalization "invalid authorization value") :=
  ⟨rfl,
    (normalization_outcomes.1 bearerSpec [("authorization", "Bearer good")]
      [("TOKEN", "envtok")] "Authorization" "Bearer good" rfl rfl rfl rfl
      rfl).1 "good" rfl,
    rfl,
    (normalization_outcomes.1 bearerSpec [("authorization", "bad")]
      [("TOKEN", "envtok")] "Authorization" "bad" rfl rfl rfl rfl rfl).2.2
      "invalid authorization value" rfl⟩

/-- C6: defaults bypass normalization.  When both the header and the
environment branch fall through and a default is configured, resolution
returns exactly the default — the literal, or the producer invoked with no
arguments — for every configured normalize function; concretely a spec whose
normalize function would rewrite any value still resolves to its literal
default unchanged, and a producer default is invoked. -/
theorem defaults_bypass_normalization :
    (∀ (arg : MCPServerConfigArg) (headers env : List (String × String))
        (d : ConfigDefault),
      tryHeaderSource arg headers = none → tryEnvSource arg env = none →
      arg.default = some d →
      _resolve_config_arg arg headers env = .ok (evalDefault d)) ∧
    _resolve_config_arg trustedDefaultSpec [] [] = .ok "dflt" ∧
    _resolve_config_arg producerDefaultSpec [] [] = .ok "produced" := by
  refine ⟨?_, rfl, rfl⟩
  intro arg headers env d hh he hd
  simp [_resolve_config_arg, hh, resolveEnvOnward, he, resolveDefaultOnward, hd]

/-- C6 witness: the general statement applied to the spec whose normalize
function would have produced `"NORMALIZED"`. -/
theorem defaults_bypass_normalization_witness :
    trustedDefaultSpec.default = some (.literal "dflt") ∧
    _resolve_config_arg trustedDefaultSpec [] [] =
      .ok (evalDefault (.literal "dflt")) :=
  ⟨rfl,
    defaults_bypass_normalization.1 trustedDefaultSpec [] []
      (.literal "dflt") rfl rfl rfl⟩

/-- C5 counterexample: a header value whose normalization yields the empty
string terminates resolution with the empty string; resolution does not
proceed to the environment source (which holds `"envval"`). -/
theorem empty_normalization_stops_cex :
    _resolve_config_arg emptyNormSpec [("X-K", "raw")] [("E", "envval")] =
      .ok "" ∧
    resolveEnvOnward emptyNormSpec [("E", "envval")] = .ok "envval" ∧
    _resolve_config_arg emptyNormSpec [("X-K", "raw")] [("E", "envval")] ≠
      resolveEnvOnward emptyNormSpec [("E", "envval")] :=
  ⟨rfl, rfl, fun h => absurd (Except.ok.inj h) (by decide)⟩

/-- C5 (amended): resolution stops at the first source whose raw value is
present and non-empty and whose normalization does not signal not-found —
even when the normalized value is the empty string, which is returned as-is;
a source whose raw value is the empty string does fall through to the next
source. -/
theorem nonempty_stopping_rule :
    (∀ (arg : MCPServerConfigArg) (headers env : List (String × String))
        (hk hv n : String),
      arg.http_header_key = some hk → hk.isEmpty = false →
      headers.isEmpty = false → _get_header_value headers hk = some hv →
      hv.isEmpty = false → _apply_normalize arg hv = .ok (some n) →
      _resolve_config_arg arg headers env = .ok n) ∧
    (∀ (arg : MCPServerConfigArg) (headers env : List (String × String))
        (hk : String),
      arg.http_header_key = some hk → hk.isEmpty = false →
      headers.isEmpty = false → _get_header_value headers hk = some "" →
      _resolve_config_arg arg headers env = resolveEnvOnward arg env) ∧
    _resolve_config_arg emptyNormSpec [("X-K", "raw")] [("E", "envval")] =
      .ok "" := by
  refine ⟨?_, ?_, rfl⟩
  · intro arg headers env hk hv n hhk hkne hhe hget hvne hn
    simp [_resolve_config_arg, tryHeaderSource, hhk, hkne, hhe, hget, hvne, hn]
  · intro arg headers env hk hhk hkne hhe hget
    have h0 : ("" : String).isEmpty = true := rfl
    simp [_resolve_config_arg, tryHeaderSource, hhk, hkne, hhe, hget, h0]

/-- C5 witness: a raw-empty header falls through to the environment, and a
normalized non-empty header value stops resolution. -/
theorem nonempty_stopping_rule_witness :
    _get_header_value [("X-API-Key", "")] "X-API-Key" = some "" ∧
    _resolve_config_arg apiKeySpec [("X-API-Key", "")]
      [("API_KEY", "secret1")] =
      resolveEnvOnward apiKeySpec [("API_KEY", "secret1")] ∧
    _resolve_config_arg apiKeySpec [("X-API-Key", "hval")] [] = .ok "hval" :=
  ⟨rfl,
    nonempty_stopping_rule.2.1 apiKeySpec [("X-API-Key", "")]
      [("API_KEY", "secret1")] "X-API-Key" rfl rfl rfl rfl,
    nonempty_stopping_rule.1 apiKeySpec [("X-API-Key", "hval")] []
      "X-API-Key" "hval" "hval" rfl rfl rfl rfl rfl rfl⟩

/-- C7: case-insensitive header lookup.  Lookup only depends on the
lower-cased header name; the first entry whose key matches lower-cased wins,
a non-matching head is skipped; and resolution of a single-entry header map
is unchanged under re-casing of the entry's key. -/
theorem header_case_insensitive :
    (∀ (headers : List (String × String)) (n1 n2 : String),
      pyLower n1 = pyLower n2 →
      _get_header_value headers n1 = _get_header_value headers n2) ∧
    (∀ (k v : String) (rest : List (String × String)) (n : String),
      pyLower k = pyLower n → _get_header_value ((k, v) :: rest) n = some v) ∧
    (∀ (k v : String) (rest : List (String × String)) (n : String),
      pyLower k ≠ pyLower n →
      _get_header_value ((k, v) :: rest) n = _get_header_value rest n) ∧
    (∀ (arg : MCPServerConfigArg) (env : List (String × String))
        (k1 k2 v : String),
      pyLower k1 = pyLower k2 →
      _resolve_config_arg arg [(k1, v)] env =
        _resolve_config_arg arg [(k2, v)] env) := by
  have hgv : ∀ (k1 k2 v n : String), pyLower k1 = pyLower k2 →
      _get_header_value [(k1, v)] n = _get_header_value [(k2, v)] n := by
    intro k1 k2 v n h
    simp [_get_header_value, List.findSome?_cons, h]
  refine ⟨?_, ?_, ?_, ?_⟩
  · intro headers n1 n2 h
    simp only [_get_header_value, h]
  · intro k v rest n h
    simp [_get_header_value, h]
  · intro k v rest n h
    simp [_get_header_value, h]
  · intro arg env k1 k2 v h
    have hth : tryHeaderSource arg [(k1, v)] = tryHeaderSource arg [(k2, v)] := by
      rcases hhk : arg.http_header_key with _ | hk
      · simp [tryHeaderSource, hhk]
      · simp only [tryHeaderSource, hhk, hgv k1 k2 v hk h, List.isEmpty_cons]
    simp only [_resolve_config_arg, hth]

/-- C7 witness: the spec's `X-API-Key` arg resolves identically whether the
incoming header is `x-api-key` or `X-API-KEY`, and the first of two
case-insensitive duplicates wins. -/
theorem header_case_insensitive_witness :
    pyLower "x-api-key" = pyLower "X-API-KEY" ∧
    _resolve_config_arg apiKeySpec [("x-api-key", "s")] [] =
      _resolve_config_arg apiKeySpec [("X-API-KEY", "s")] [] ∧
    _get_header_value [("X-Api-Key", "first"), ("x-api-key", "second")]
      "X-API-Key" = some "first" :=
  ⟨rfl,
    header_case_insensitive.2.2.2 apiKeySpec [] "x-api-key" "X-API-KEY" "s" rfl,
    header_case_insensitive.2.1 "X-Api-Key" "first" [("x-api-key", "second")]
      "X-API-Key" rfl⟩

/-- Any rejection produced by `on_call_tool` carries exactly the canonical
message built from the tool name. -/
theorem reject_msg_canonical {Ctx : Type} (app : App) (f : ToolFilterFn Ctx)
    (ctx : Ctx) (name msg : String)
    (h : on_call_tool app f ctx name = .reject msg) :
    msg = rejectionMessage name := by
  rcases hlook : _get_tool_by_name app name with _ | tool
  · simp [on_call_tool, hlook] at h
  · cases hft : f tool ctx with
    | true => simp [on_call_tool, hlook, hft] at h
    | false =>
      simp only [on_call_tool, hlook, hft, Bool.not_false, if_pos] at h
      exact (CallDecision.reject.inj h.symm)

/-- C8: opaque rejection.  Every rejection message the call path emits is
exactly the canonical message, which is a function of the tool name only:
it names the tool, and any two rejections of the same tool name — under any
contexts, apps, and filters, whatever the reason for hiding — carry the
identical message. -/
theorem opaque_rejection {Ctx : Type} (app : App) (f : ToolFilterFn Ctx)
    (ctx : Ctx) (name msg : String)
    (h : on_call_tool app f ctx name = .reject msg) :
    msg = rejectionMessage name ∧
    containsStr (rejectionMessage name) name ∧
    (∀ (Ctx' : Type) (app' : App) (f' : ToolFilterFn Ctx') (ctx' : Ctx')
        (msg' : String),
      on_call_tool app' f' ctx' name = .reject msg' → msg' = msg) := by
  refine ⟨reject_msg_canonical app f ctx name msg h, ?_, ?_⟩
  · unfold rejectionMessage
    exact containsStr_append_left _ _ _ (containsStr_append_left _ _ _
      (containsStr_append_left _ _ _ (containsStr_append_right _ _ _
        (containsStr_self name))))
  · intro Ctx' app' f' ctx' msg' h'
    rw [reject_msg_canonical app' f' ctx' name msg' h',
      reject_msg_canonical app f ctx name msg h]

/-- C8 witness: the canonical rejection for `write_tool`, naming the tool. -/
theorem opaque_rejection_witness :
    on_call_tool demoApp hideAllFilter () "write_tool" =
      .reject (rejectionMessage "write_tool") ∧
    containsStr (rejectionMessage "write_tool") "write_tool" :=
  ⟨rfl,
    (opaque_rejection demoApp hideAllFilter () "write_tool"
      (rejectionMessage "write_tool") rfl).2.1⟩

/-- C9: filter composition is the logical AND of the registered filters, so
it is invariant under permutation of the registration order, removing a
filter can only keep a visible tool visible (adding one never enlarges the
visible set), and a tool hidden by any single member filter is hidden by the
composition.  (The composing code is not under src; `composeFilters` is
modelled from the spec.) -/
theorem filter_composition_order_free (Ctx : Type) :
    (∀ (fs : List (ToolFilterFn Ctx)) (t : Tool) (c : Ctx),
      composeFilters fs t c = (fs.all fun f => f t c)) ∧
    (∀ fs gs : List (ToolFilterFn Ctx), fs.Perm gs →
      ∀ (t : Tool) (c : Ctx), composeFilters fs t c = composeFilters gs t c) ∧
    (∀ (f : ToolFilterFn Ctx) (fs : List (ToolFilterFn Ctx)) (t : Tool)
        (c : Ctx),
      composeFilters (f :: fs) t c = true → composeFilters fs t c = true) ∧
    (∀ (fs : List (ToolFilterFn Ctx)) (f : ToolFilterFn Ctx), f ∈ fs →
      ∀ (t : Tool) (c : Ctx), f t c = false →
        composeFilters fs t c = false) ∧
    (∀ (f : ToolFilterFn Ctx) (fs : List (ToolFilterFn Ctx)) (c : Ctx)
        (tools : List Tool) (t : Tool),
      t ∈ on_list_tools (composeFilters (f :: fs)) c tools →
      t ∈ on_list_tools (composeFilters fs) c tools) := by
  refine ⟨fun fs t c => rfl, ?_, ?_, ?_, ?_⟩
  · intro fs gs hp t c
    simp only [composeFilters]
    cases h1 : (fs.all fun f => f t c) with
    | true =>
      have hall := List.all_eq_true.mp h1
      exact (List.all_eq_true.mpr fun f hf =>
        hall f (hp.mem_iff.mpr hf)).symm
    | false =>
      cases h2 : (gs.all fun f => f t c) with
      | false => rfl
      | true =>
        have hall := List.all_eq_true.mp h2
        have hft : (fs.all fun f => f t c) = true :=
          List.all_eq_true.mpr fun f hf => hall f (hp.mem_iff.mp hf)
        rw [h1] at hft
        exact hft
  · intro f fs t c h
    simp only [composeFilters, List.all_cons, Bool.and_eq_true] at h
    exact h.2
  · intro fs f hf t c hfc
    simp only [composeFilters]
    cases h : (fs.all fun g => g t c) with
    | false => rfl
    | true =>
      have := List.all_eq_true.mp h f hf
      rw [hfc] at this
      exact absurd this (by simp)
  · intro f fs c tools t ht
    rw [on_list_tools, List.mem_filter] at ht ⊢
    refine ⟨ht.1, ?_⟩
    have := ht.2
    simp only [composeFilters, List.all_cons, Bool.and_eq_true] at this
    exact this.2

/-- C9 witness: swapping the readonly-mode style filter and the
no-destructive style filter leaves the decision on a tool hinted both
read-only and destructive unchanged; the pair hides it although the
readonly filter alone admits it. -/
theorem filter_composition_order_free_witness :
    composeFilters [readOnlyOnlyFilter, noDestructiveFilter] dualHintTool () =
      composeFilters [noDestructiveFilter, readOnlyOnlyFilter] dualHintTool () ∧
    composeFilters [readOnlyOnlyFilter, noDestructiveFilter] dualHintTool () =
      false ∧
    composeFilters [readOnlyOnlyFilter] dualHintTool () = true :=
  ⟨(filter_composition_order_free Unit).2.1
      [readOnlyOnlyFilter, noDestructiveFilter]
      [noDestructiveFilter, readOnlyOnlyFilter]
      (List.Perm.swap noDestructiveFilter readOnlyOnlyFilter [])
      dualHintTool (),
    rfl, rfl⟩

/-- C10: a call whose tool name the middleware cannot look up — including
when the app has no tool manager at all — is forwarded unchanged for every
filter; the filter is never consulted and the call is never rejected. -/
theorem unknown_tool_forwards {Ctx : Type} (app : App) (ctx : Ctx)
    (name : String) (h : _get_tool_by_name app name = none) :
    (∀ f : ToolFilterFn Ctx, on_call_tool app f ctx name = .forward) ∧
    (app.tool_manager = none →
      ∀ name' : String, _get_tool_by_name app name' = none) := by
  constructor
  · intro f
    simp [on_call_tool, h]
  · intro hmgr name'
    simp [_get_tool_by_name, hmgr]

/-- C10 witness: calling an unregistered name forwards, both with a tool
manager present and with none at all. -/
theorem unknown_tool_forwards_witness :
    _get_tool_by_name demoApp "no_such_tool" = none ∧
    on_call_tool demoApp hideAllFilter () "no_such_tool" = .forward ∧
    on_call_tool { tool_manager := none } hideAllFilter () "write_tool" =
      .forward :=
  ⟨rfl,
    (unknown_tool_forwards demoApp () "no_such_tool" rfl).1 hideAllFilter,
    (unknown_tool_forwards { tool_manager := none } () "write_tool" rfl).1
      hideAllFilter⟩

end FastmcpExtensions
